import Mathlib

/-!
Verification development for the hopsworks-api Python client's
dataframe-to-Kafka ingestion pipeline.  The definitions below are shallow
embeddings of the Python functions in
`python/hsfs/core/kafka_engine.py`,
`python/hsfs/core/feature_group_engine.py` and
`python/hsfs/engine/python.py`; the theorems settle the specification
claims about them.
-/

set_option linter.unusedVariables false

namespace HopsworksSpec

/-- Python-level values as they appear in dataframe rows handed to the
ingestion path.  `pyNA` models `pd.NA` (the pandas missing-value marker),
`pyNone` models Python `None`. -/
inductive PyValue where
  | pyInt : Int → PyValue
  | pyStr : String → PyValue
  | pyBool : Bool → PyValue
  | pyNA : PyValue
  | pyNone : PyValue
  deriving DecidableEq, Repr

/-- Python `str()` applied to a `PyValue`. -/
def PyValue.toStr : PyValue → String
  | .pyInt n => toString n
  | .pyStr s => s
  | .pyBool true => "True"
  | .pyBool false => "False"
  | .pyNA => "<NA>"
  | .pyNone => "None"

/-- Python `"".join(...)`: concatenation of a list of strings. -/
def pyJoin : List String → String
  | [] => ""
  | s :: rest => s ++ pyJoin rest

/-! ## kafka_engine.py: delivery callback (build_ack_callback_and_optional_progress_bar) -/

/-- Error codes surfaced by the confluent-kafka producer in delivery
callbacks.  The two named codes are the ones the source treats specially;
`other` stands for every remaining `KafkaError` code. -/
inductive KafkaErrorCode where
  | topicAuthorizationFailed
  | msgTimedOut
  | other : Int → KafkaErrorCode
  deriving DecidableEq, Repr

/-- Outcome of one invocation of the `acked` delivery callback: either it
returns normally (recording whether the progress bar advanced), or it
raises out of the callback. -/
inductive AckOutcome where
  | returned : Bool → AckOutcome
  | raisedDeliveryError : KafkaErrorCode → AckOutcome
  | raisedAttributeError : AckOutcome
  deriving DecidableEq, Repr

/-- The list `[KafkaError.TOPIC_AUTHORIZATION_FAILED, KafkaError._MSG_TIMED_OUT]`
tested by the callback. -/
def fatalAckCodes : List KafkaErrorCode :=
  [.topicAuthorizationFailed, .msgTimedOut]

/-- Embedding of the closure `acked` built by
`build_ack_callback_and_optional_progress_bar`.  When the insert is not
multi-part a progress bar exists and is advanced on every delivery; when it
is multi-part `progress_bar` is `None`, so the attempted
`progress_bar.colour = "RED"` on a fatal error raises `AttributeError`
before the delivery error itself can be re-raised.  `debugKafka` only
controls a diagnostic print and does not change control flow. -/
def acked (isMultiPartInsert : Bool) (debugKafka : Bool)
    (err : Option KafkaErrorCode) : AckOutcome :=
  match err with
  | some e =>
    if e ∈ fatalAckCodes then
      if isMultiPartInsert then .raisedAttributeError
      else .raisedDeliveryError e
    else .returned (!isMultiPartInsert)
  | none => .returned (!isMultiPartInsert)

/-- Whether an `AckOutcome` is an exception escaping the callback. -/
def AckOutcome.raises : AckOutcome → Bool
  | .returned _ => false
  | .raisedDeliveryError _ => true
  | .raisedAttributeError => true

/-! ## kafka_engine.py: kafka_produce retry loop -/

/-- One scripted response of the producer object to a `produce()` call:
either the local buffer is full (`BufferError` is thrown) or the message is
accepted into the queue. -/
inductive ProduceResponse where
  | bufferError
  | accepted
  deriving DecidableEq, Repr

/-- Calls that `kafka_produce` makes on the producer, in order.  `poll t`
records a `producer.poll(t)` with timeout `t` seconds. -/
inductive ProducerCall where
  | produceAttempt
  | poll : Nat → ProducerCall
  deriving DecidableEq, Repr

/-- Embedding of the `while True` retry loop of `kafka_produce`.  Each
iteration consumes one scripted producer response: on `accepted` the loop
polls with timeout 0 and breaks; on `bufferError` it polls with timeout 1
(the one-second backoff) and retries.  The result is the trace of producer
calls, or `none` when the script is exhausted with the loop still
retrying (the loop itself has no other exit and raises nothing). -/
def kafkaProduce : List ProduceResponse → Option (List ProducerCall)
  | [] => none
  | .accepted :: _ => some [.produceAttempt, .poll 0]
  | .bufferError :: rest =>
    match kafkaProduce rest with
    | some tr => some (.produceAttempt :: .poll 1 :: tr)
    | none => none

/-- Number of `produce()` attempts recorded in a trace. -/
def countProduceAttempts (tr : List ProducerCall) : Nat :=
  tr.countP fun c =>
    match c with
    | .produceAttempt => true
    | .poll _ => false

/-! ## Data model: features and transformation-function bindings -/

/-- A feature of a feature group schema (`hsfs.feature.Feature`): a name, an
optional declared type, and the `on_demand` flag set on synthetic
transformation-output features. -/
structure Feature where
  name : String
  ftype : Option String := none
  onDemand : Bool := false
  deriving DecidableEq, Repr

/-- The slice of `HopsworksUdf` the engine code reads: declared output
column names, their return types (parallel lists), the input feature names,
and the set of features the udf drops from the schema. -/
structure HopsworksUdf where
  outputColumnNames : List String
  returnTypes : List String
  transformationFeatures : List String := []
  droppedFeatures : List String := []
  deriving DecidableEq, Repr

/-- A transformation-function binding attached to a feature group. -/
structure TransformationFunction where
  hopsworksUdf : HopsworksUdf
  deriving DecidableEq, Repr

/-- The synthetic features one binding contributes: one on-demand `Feature`
per `(output_column_name, return_type)` pair of the udf. -/
def TransformationFunction.outputFeatures (tf : TransformationFunction) : List Feature :=
  (tf.hopsworksUdf.outputColumnNames.zip tf.hopsworksUdf.returnTypes).map
    fun p => { name := p.1, ftype := some p.2, onDemand := true }

/-- Embedding of
`FeatureGroupEngine._update_feature_group_schema_on_demand_transformations`,
written as the source writes it: a loop accumulating the synthetic
transformed features and the dropped-feature names (the `extend` is guarded
by a truthiness test on `dropped_features`), a second loop appending every
input feature whose name is not dropped, then the concatenation. -/
def updateFGSchemaOnDemand (tfs : List TransformationFunction)
    (features : List Feature) : List Feature :=
  if tfs.isEmpty then features
  else
    let acc := tfs.foldl
      (fun (acc : List Feature × List String) tf =>
        (acc.1 ++ tf.outputFeatures,
         if !tf.hopsworksUdf.droppedFeatures.isEmpty then
           acc.2 ++ tf.hopsworksUdf.droppedFeatures
         else acc.2))
      ([], [])
    let updatedSchema := features.foldl
      (fun schema feat =>
        if feat.name ∈ acc.2 then schema else schema ++ [feat])
      []
    updatedSchema ++ acc.1

/-- The union (as a list, in binding declaration order) of all bindings'
dropped-feature name sets. -/
def droppedUnion (tfs : List TransformationFunction) : List String :=
  (tfs.map fun tf => tf.hopsworksUdf.droppedFeatures).flatten

/-- All synthetic on-demand output features, in binding declaration order. -/
def onDemandOutputs (tfs : List TransformationFunction) : List Feature :=
  (tfs.map TransformationFunction.outputFeatures).flatten

/-! ## engine/python.py: _write_dataframe_kafka -/

/-- A dataframe row as iterated by `_write_dataframe_kafka`, after
`row._asdict()`: an association list from column name to value. -/
def KRow : Type := List (String × PyValue)

/-- Python `row[k]` on the dict form of a row (rows produced from a
dataframe always carry every column, so the lookup is total here). -/
def KRow.get (row : KRow) (k : String) : PyValue :=
  match row.lookup k with
  | some v => v
  | none => .pyNone

/-- The value-level normalization `encode_row` applies in place to every
dict entry before encoding (and hence before the key is assembled):
`pd.NA` markers become `None`; the numpy/timestamp conversions do not
change the printed form of the value classes modelled here. -/
def normalizeValue : PyValue → PyValue
  | .pyNA => .pyNone
  | v => v

/-- The in-place normalization loop at the start of `encode_row`. -/
def normalizeRow (row : KRow) : KRow :=
  row.map fun p => (p.1, normalizeValue p.2)

/-- The slice of a (stream) feature group `_write_dataframe_kafka` reads. -/
structure FeatureGroupK where
  primaryKey : List String
  onlineTopicName : String
  multiPartInsert : Bool
  isExternal : Bool
  onlineEnabled : Bool
  materializationJobDefaultArgs : String
  deriving DecidableEq, Repr

/-- The caller's optional backfill interval, either a cron expression
string or an integer number of hours. -/
inductive BackfillEveryHr where
  | cronStr : String → BackfillEveryHr
  | hours : Nat → BackfillEveryHr
  deriving DecidableEq, Repr

/-- Python truthiness of the backfill option value. -/
def BackfillEveryHr.truthy : BackfillEveryHr → Bool
  | .cronStr s => s ≠ ""
  | .hours n => n ≠ 0

/-- The offline write options `_write_dataframe_kafka` and
`_start_offline_materialization` consult.  Each field models the presence
or value of the corresponding dictionary key. -/
structure WriteOptions where
  startOfflineMaterializationKey : Option Bool := none
  startOfflineBackfillKey : Option Bool := none
  skipOffsets : Bool := false
  offlineBackfillEveryHr : Option BackfillEveryHr := none
  waitForJob : Bool := false
  deriving DecidableEq, Repr

/-- Embedding of `Engine._start_offline_materialization`: the
`start_offline_materialization` key wins if present, else
`start_offline_backfill`, else `True`. -/
def startOfflineMaterialization (o : WriteOptions) : Bool :=
  match o.startOfflineMaterializationKey with
  | some b => b
  | none =>
    match o.startOfflineBackfillKey with
    | some b => b
    | none => true

/-- Wall-clock instant captured by `datetime.now(timezone.utc)` before the
job is triggered, reduced to the fields the cron conversion reads. -/
structure NowTime where
  second : Nat
  minute : Nat
  hour : Nat
  deriving DecidableEq, Repr

/-- The cron expression
`f"{now.second} {now.minute} {now.hour}/{offline_backfill_every_hr} ? * * *"`
built for an integer hour interval. -/
def hourIntervalCron (now : NowTime) (hr : Nat) : String :=
  toString now.second ++ " " ++ toString now.minute ++ " " ++
    toString now.hour ++ "/" ++ toString hr ++ " ? * * *"

/-- One `materialization_job.run(...)` call. -/
structure JobRun where
  args : String
  awaitTermination : Bool
  deriving DecidableEq, Repr

/-- Observable outcome of one `_write_dataframe_kafka` call: the pre-publish
checkpoint, the keys published to the topic (in row order), the
materialization-job trigger if any, and the registered recurring schedule
if any. -/
structure WriteKafkaResult where
  initialCheckPointBefore : String
  producedKeys : List String
  jobRun : Option JobRun
  scheduledCron : Option String
  deriving DecidableEq, Repr

/-- The `args` string passed to `materialization_job.run`:
`defaultArgs + (f" -initialCheckPointString {icp}" if icp else "")`. -/
def jobArgs (defaultArgs icp : String) : String :=
  defaultArgs ++ (if icp ≠ "" then " -initialCheckPointString " ++ icp else "")

/-- Shallow embedding of `Engine._write_dataframe_kafka`.  External
collaborators are passed as values: `highBefore` is what
`kafka_get_offsets(..., high=True)` returns before publishing, `lowAfter`
what `kafka_get_offsets(..., high=False)` returns after publishing,
`jobHasLastExecution` the truthiness of
`self._job_api.last_execution(feature_group.materialization_job)`, and
`now` the captured wall clock.  The embedding mirrors the source's control
flow statement by statement; per-row publication is reflected in the
produced key trace (key = concatenation of `str(row[pk])` over
`sorted(feature_group.primary_key)`, computed after `encode_row` has
normalized the row dict in place). -/
def writeDataframeKafka (fg : FeatureGroupK) (df : List KRow)
    (o : WriteOptions) (highBefore lowAfter : String)
    (jobHasLastExecution : Bool) (now : NowTime) : WriteKafkaResult :=
  let initialCheckPoint := if !fg.multiPartInsert then highBefore else ""
  let producedKeys := df.map fun row =>
    let row := normalizeRow row
    pyJoin ((fg.primaryKey.insertionSort (· ≤ ·)).map fun pk => (row.get pk).toStr)
  if fg.isExternal then
    { initialCheckPointBefore := initialCheckPoint
      producedKeys := producedKeys
      jobRun := none
      scheduledCron := none }
  else if initialCheckPoint = "" && !fg.multiPartInsert then
    let icp := lowAfter
    let run : JobRun :=
      { args := jobArgs fg.materializationJobDefaultArgs icp
        awaitTermination := o.waitForJob }
    let cron : Option String :=
      match o.offlineBackfillEveryHr with
      | some v =>
        if v.truthy then
          some (match v with
            | .cronStr s => s
            | .hours n => hourIntervalCron now n)
        else none
      | none => none
    { initialCheckPointBefore := initialCheckPoint
      producedKeys := producedKeys
      jobRun := some run
      scheduledCron := cron }
  else if startOfflineMaterialization o then
    let icp :=
      if !o.skipOffsets && jobHasLastExecution then "" else initialCheckPoint
    { initialCheckPointBefore := initialCheckPoint
      producedKeys := producedKeys
      jobRun := some
        { args := jobArgs fg.materializationJobDefaultArgs icp
          awaitTermination := o.waitForJob }
      scheduledCron := none }
  else
    { initialCheckPointBefore := initialCheckPoint
      producedKeys := producedKeys
      jobRun := none
      scheduledCron := none }

/-! ## feature_group_engine.py: save / insert control flow -/

/-- Whether feature `a` is matched by feature `b`: same name, and same type
where both declare one. -/
def featureMatched (a b : Feature) : Bool :=
  a.name == b.name &&
    (match a.ftype, b.ftype with
     | some ta, some tb => ta == tb
     | _, _ => true)

/-- Modelled from the spec: `FeatureGroupBaseEngine._verify_schema_compatibility`
is not among the provided sources (only its callers are).  Per the spec it
"fails with `SchemaMismatchError` naming every feature present in one list
but not matched (by name, and by type if types are provided) in the other".
This computes that list of unmatched features. -/
def schemaUnmatched (existing incoming : List Feature) : List Feature :=
  existing.filter (fun e => !(incoming.any (featureMatched e))) ++
    incoming.filter (fun i => !(existing.any (fun e => featureMatched e i)))

/-- Modelled from the spec: the compatibility check itself — succeeds when
no feature is unmatched, otherwise fails naming all unmatched features. -/
def verifySchemaCompatibility (existing incoming : List Feature) :
    Except (List Feature) Unit :=
  if (schemaUnmatched existing incoming).isEmpty then .ok ()
  else .error (schemaUnmatched existing incoming)

/-- Validation report returned by the great-expectations gate; the engine
only reads its `ingestion_result` string. -/
structure GeReport where
  ingestionResult : String
  deriving DecidableEq, Repr

/-- The slice of a feature group the save/insert control flow reads. -/
structure FeatureGroupMeta where
  id : Option Nat
  features : List Feature
  transformationFunctions : List TransformationFunction
  isExternal : Bool
  onlineEnabled : Bool
  hasEmbeddingIndex : Bool
  deriving DecidableEq, Repr

/-- Engine/collaborator calls made by `save`/`insert`, in order. -/
inductive EngineCall where
  | applyTransformationFunctions
  | saveFeatureGroupMetadata
  | geValidate
  | deleteContent
  | saveDataframe
  deriving DecidableEq, Repr

/-- Exceptions the save/insert control flow can raise. -/
inductive InsertError where
  | embeddingTypeError
  | onlineSchemaValidationError
  | schemaMismatch : List Feature → InsertError
  | dataValidation : String → InsertError
  | onlineStorageNotEnabled
  deriving DecidableEq, Repr

/-- Embedding of `FeatureGroupEngine.save_feature_group_metadata`'s schema
check: with an empty declared schema the dataframe features are adopted;
with a non-empty declared schema and non-empty dataframe features,
compatibility is verified.  `attributeKeysOk` stands for the outcome of
`util.verify_attribute_key_names` (not among the provided sources). -/
def saveFGMetadataCheck (fg : FeatureGroupMeta) (dfFeatures : List Feature) :
    Except InsertError Unit :=
  if fg.features.isEmpty then .ok ()
  else if !dfFeatures.isEmpty then
    match verifySchemaCompatibility fg.features dfFeatures with
    | .ok _ => .ok ()
    | .error unmatched => .error (.schemaMismatch unmatched)
  else .ok ()

/-- Tail of `FeatureGroupEngine.insert` after the metadata/schema step: the
great-expectations validation (a `REJECTED` report raises
`DataValidationException` referencing the report's url), the
online-storage guard, the optional `delete_content` on overwrite, and
finally `save_dataframe`. -/
def fgInsertTail (trace : List EngineCall) (fg : FeatureGroupMeta)
    (geReport : Option GeReport) (storage : Option String) (overwrite : Bool)
    (fgUrl : String) : List EngineCall × Except InsertError Unit :=
  let trace := trace ++ [EngineCall.geValidate]
  if (match geReport with
      | some r => r.ingestionResult = "REJECTED"
      | none => false : Bool) then
    (trace, .error (.dataValidation fgUrl))
  else if !fg.onlineEnabled && storage = some "online" then
    (trace, .error .onlineStorageNotEnabled)
  else
    let trace := if overwrite then trace ++ [EngineCall.deleteContent] else trace
    (trace ++ [EngineCall.saveDataframe], .ok ())

/-- Shallow embedding of `FeatureGroupEngine.insert`.  Collaborator results
are passed in: `parsedFeatures` is what `parse_schema_feature_group`
returned, `validatorResult` the outcome of the online-schema
`DataFrameValidator` (not among the provided sources), `embeddingCheckOk`
the outcome of `util.validate_embedding_feature_type`, `geReport` the
great-expectations report, `fgUrl` the feature-group url interpolated into
the `DataValidationException`.  Returns the trace of engine calls together
with the control-flow outcome. -/
def insertAppliesTransformations (fg : FeatureGroupMeta) (transform : Bool) :
    Bool :=
  !fg.isExternal && !fg.transformationFunctions.isEmpty && transform

/-- The `dataframe_features` value `insert` holds after the transformation
step: the on-demand schema update is applied only when the transformation
functions themselves are applied. -/
def insertDataframeFeatures (fg : FeatureGroupMeta)
    (parsedFeatures : List Feature) (transform : Bool) : List Feature :=
  if insertAppliesTransformations fg transform then
    updateFGSchemaOnDemand fg.transformationFunctions parsedFeatures
  else parsedFeatures

/-- The online-schema validation step shared by `save` and `insert`: the
`DataFrameValidator` (not among the provided sources, passed in as
`validatorResult`) replaces `dataframe_features` only for online-enabled,
non-embedding feature groups with `online_schema_validation` left on. -/
def onlineValidatedFeatures (fg : FeatureGroupMeta)
    (dfFeatures : List Feature) (onlineSchemaValidation : Bool)
    (validatorResult : Except Unit (List Feature)) :
    Except Unit (List Feature) :=
  if fg.onlineEnabled && !fg.hasEmbeddingIndex && onlineSchemaValidation then
    validatorResult
  else .ok dfFeatures

/-- The metadata-or-verification step of `insert`: with no id the feature
group is created (metadata saved, which itself checks a user-declared
schema), otherwise the declared schema is verified against the dataframe
features. -/
def insertSchemaStep (fg : FeatureGroupMeta) (dfFeatures : List Feature) :
    Except InsertError Bool :=
  match fg.id with
  | none =>
    match saveFGMetadataCheck fg dfFeatures with
    | .error e => .error e
    | .ok _ => .ok true
  | some _ =>
    match verifySchemaCompatibility fg.features dfFeatures with
    | .error unmatched => .error (.schemaMismatch unmatched)
    | .ok _ => .ok false

def fgInsert (fg : FeatureGroupMeta) (parsedFeatures : List Feature)
    (transform : Bool) (onlineSchemaValidation : Bool)
    (validatorResult : Except Unit (List Feature)) (embeddingCheckOk : Bool)
    (geReport : Option GeReport) (storage : Option String) (overwrite : Bool)
    (fgUrl : String) : List EngineCall × Except InsertError Unit :=
  let trace0 : List EngineCall :=
    if insertAppliesTransformations fg transform then
      [.applyTransformationFunctions]
    else []
  if !embeddingCheckOk then (trace0, .error .embeddingTypeError)
  else
    match onlineValidatedFeatures fg
        (insertDataframeFeatures fg parsedFeatures transform)
        onlineSchemaValidation validatorResult with
    | .error _ => (trace0, .error .onlineSchemaValidationError)
    | .ok dfFeatures =>
      match insertSchemaStep fg dfFeatures with
      | .error e => (trace0, .error e)
      | .ok savedMetadata =>
        fgInsertTail
          (trace0 ++
            (if savedMetadata then [EngineCall.saveFeatureGroupMetadata]
             else []))
          fg geReport storage overwrite fgUrl

/-- Shallow embedding of `FeatureGroupEngine.save`.  Unlike `insert`, the
on-demand schema update is unconditional, metadata is always saved, and a
`REJECTED` validation report is a soft no-op: the function returns with no
job (`none`) instead of raising. -/
def fgSave (fg : FeatureGroupMeta) (parsedFeatures : List Feature)
    (onlineSchemaValidation : Bool)
    (validatorResult : Except Unit (List Feature)) (embeddingCheckOk : Bool)
    (geReport : Option GeReport) :
    List EngineCall × Except InsertError (Option Unit) :=
  let dfFeatures :=
    updateFGSchemaOnDemand fg.transformationFunctions parsedFeatures
  let applyTf := !fg.transformationFunctions.isEmpty && !fg.isExternal
  let trace0 : List EngineCall :=
    if applyTf then [.applyTransformationFunctions] else []
  if !embeddingCheckOk then (trace0, .error .embeddingTypeError)
  else
    match onlineValidatedFeatures fg dfFeatures onlineSchemaValidation
        validatorResult with
    | .error _ => (trace0, .error .onlineSchemaValidationError)
    | .ok dfFeatures =>
      match saveFGMetadataCheck fg dfFeatures with
      | .error e => (trace0, .error e)
      | .ok _ =>
        let trace :=
          trace0 ++ [EngineCall.saveFeatureGroupMetadata, EngineCall.geValidate]
        if (match geReport with
            | some r => r.ingestionResult = "REJECTED"
            | none => false : Bool) then
          (trace, .ok none)
        else
          (trace ++ [EngineCall.saveDataframe], .ok (some ()))

/-! ## engine/python.py: _apply_python_udf / _apply_pandas_udf (pandas path) -/

/-- A pandas dataframe for the transformation applicator: an ordered list
of named columns, each a list of row values. -/
structure PandasDF where
  cols : List (String × List PyValue)
  deriving DecidableEq, Repr

/-- The values of a named column (first occurrence), empty if absent. -/
def PandasDF.colValues (df : PandasDF) (name : String) : List PyValue :=
  match df.cols.lookup name with
  | some vs => vs
  | none => []

/-- The dataframe's column names, in order. -/
def PandasDF.colNames (df : PandasDF) : List String :=
  df.cols.map Prod.fst

/-- Number of rows (length of the first column). -/
def PandasDF.nRows (df : PandasDF) : Nat :=
  match df.cols with
  | [] => 0
  | c :: _ => c.2.length

/-- Pandas single-column assignment `df[name] = values`: an existing column
is overwritten in place, a new one is appended at the end. -/
def PandasDF.setCol (df : PandasDF) (name : String) (vals : List PyValue) :
    PandasDF :=
  if df.cols.any (fun c => c.1 == name) then
    ⟨df.cols.map fun c => if c.1 == name then (name, vals) else c⟩
  else ⟨df.cols ++ [(name, vals)]⟩

/-- Pandas multi-column assignment `df[names] = frame`: each named column
assigned in order, existing ones in place, new ones appended. -/
def PandasDF.setCols (df : PandasDF)
    (assignments : List (String × List PyValue)) : PandasDF :=
  assignments.foldl (fun d a => d.setCol a.1 a.2) df

/-- The reorder `cols.append(cols.pop(cols.index(name))); df = df[cols]`:
the first column of that name is moved to the end of the ordering. -/
def PandasDF.moveColToEnd (df : PandasDF) (name : String) : PandasDF :=
  match df.cols.find? (fun c => c.1 == name) with
  | some c => ⟨(df.cols.eraseP fun c => c.1 == name) ++ [c]⟩
  | none => df

/-- The positional input values of row `i` for a udf, in the udf's declared
transformation-feature order. -/
def udfRowInputs (df : PandasDF) (udf : HopsworksUdf) (i : Nat) :
    List PyValue :=
  udf.transformationFeatures.map fun f => (df.colValues f).getD i .pyNone

/-- The `j`-th output column a row-wise udf produces over a dataframe
(`dataframe.apply(lambda x: udf(*x[...]), axis=1, result_type="expand")`). -/
def udfOutputCol (fn : List PyValue → List PyValue) (df : PandasDF)
    (udf : HopsworksUdf) (j : Nat) : List PyValue :=
  (List.range df.nRows).map fun i => (fn (udfRowInputs df udf i)).getD j .pyNone

/-- Embedding of the pandas branch of `Engine._apply_python_udf`.  The
row-wise function `fn` maps one row's input values to its output values.
With several return types all output columns are assigned at once
(`df[output_column_names] = ...`); with a single return type the one output
column is assigned and then — the membership test after the assignment is
always true — moved to the end of the column ordering. -/
def applyPythonUdf (fn : List PyValue → List PyValue) (udf : HopsworksUdf)
    (df : PandasDF) : PandasDF :=
  if udf.returnTypes.length > 1 then
    df.setCols ((udf.outputColumnNames.enum).map fun p =>
      (p.2, udfOutputCol fn df udf p.1))
  else
    let out0 := udf.outputColumnNames.getD 0 ""
    let df := df.setCol out0 (udfOutputCol fn df udf 0)
    df.moveColToEnd out0

/-- Embedding of the pandas branch of `Engine._apply_pandas_udf`.  The
vectorized function `fnV` maps the input columns to the output columns
(aligned to the input index, so row order is preserved).  Column placement
follows the same two branches as the row-wise case. -/
def applyPandasUdf (fnV : List (List PyValue) → List (List PyValue))
    (udf : HopsworksUdf) (df : PandasDF) : PandasDF :=
  let outs := fnV (udf.transformationFeatures.map df.colValues)
  if udf.returnTypes.length > 1 then
    df.setCols ((udf.outputColumnNames.enum).map fun p =>
      (p.2, outs.getD p.1 []))
  else
    let out0 := udf.outputColumnNames.getD 0 ""
    let df := df.setCol out0 (outs.getD 0 [])
    df.moveColToEnd out0

/-! ## engine/python.py: convert_to_default_dataframe -/

/-- The data of one column object: whether its dtype is timezone-aware and
its underlying value buffer. -/
structure ColData where
  isTzAware : Bool
  values : List Int
  deriving DecidableEq, Repr

/-- A heap of column objects; references are indices, allocation appends. -/
structure PdStore where
  cells : List ColData
  deriving DecidableEq, Repr

/-- Dereference a column object (out-of-range reads never occur under the
well-formedness hypothesis used by the theorems). -/
def PdStore.read (st : PdStore) (r : Nat) : ColData :=
  st.cells.getD r ⟨false, []⟩

/-- Allocate a fresh column object, returning the new store and its ref. -/
def PdStore.alloc (st : PdStore) (cd : ColData) : PdStore × Nat :=
  (⟨st.cells ++ [cd]⟩, st.cells.length)

/-- A dataframe object: an ordered list of (column name, column ref).  Both
`pandas.DataFrame.copy(deep=False)` and `polars.DataFrame.clone()` copy
this list while sharing the referenced column objects. -/
structure PdFrame where
  columns : List (String × Nat)
  deriving DecidableEq, Repr

/-- The observable content of a frame under a store. -/
def PdFrame.resolve (df : PdFrame) (st : PdStore) : List (String × ColData) :=
  df.columns.map fun c => (c.1, st.read c.2)

/-- Modelled from the spec: `util.autofix_feature_name` is not among the
provided sources; per the spec the sanitization is "lower-casing, space
replacement". -/
def autofixFeatureName (s : String) : String :=
  (s.toLower).replace " " "_"

/-- Dropping the timezone from a column (`.dt.tz_convert(None)` on the
pandas branch, `.dt.replace_time_zone(None)` on the polars branch): the
column object becomes timezone-naive; the buffer itself is kept. -/
def tzToNaive (cd : ColData) : ColData :=
  { cd with isTzAware := false }

/-- The timezone-normalization loop over the copy's columns: a column whose
dtype is timezone-aware is replaced by a freshly allocated naive column
(`dataframe_copy[col] = ...` rebinding on the pandas branch,
`with_columns` on the polars branch — neither writes through the shared
column objects); other columns keep their shared ref. -/
def fixTzColumns (st : PdStore) :
    List (String × Nat) → PdStore × List (String × Nat)
  | [] => (st, [])
  | c :: rest =>
    let cd := st.read c.2
    if cd.isTzAware then
      let ar := st.alloc (tzToNaive cd)
      let rec' := fixTzColumns ar.1 rest
      (rec'.1, (c.1, ar.2) :: rec'.2)
    else
      let rec' := fixTzColumns st rest
      (rec'.1, (c.1, c.2) :: rec'.2)

/-- Shallow embedding of `Engine.convert_to_default_dataframe` on a pandas
or polars dataframe: make a shallow copy sharing the column objects, set
the copy's column names to their sanitized forms, normalize timezone-aware
columns on the copy, and return the copy.  The store is threaded to make
the (absence of) mutation of the caller's objects observable. -/
def convertToDefaultDataframe (st : PdStore) (df : PdFrame) :
    PdStore × PdFrame :=
  let copyCols := df.columns
  let copyCols := copyCols.map fun c => (autofixFeatureName c.1, c.2)
  let out := fixTzColumns st copyCols
  (out.1, ⟨out.2⟩)

/-- The call trace of a run of `kafka_produce` that sees `n` buffer-full
responses before acceptance: each rejected attempt is followed by a
one-second `poll`, the accepted attempt by a zero-timeout `poll`. -/
def bufferRetryTrace (n : Nat) : List ProducerCall :=
  (List.replicate n [ProducerCall.produceAttempt, ProducerCall.poll 1]).flatten
    ++ [ProducerCall.produceAttempt, ProducerCall.poll 0]

/-! ## Theorems -/

/-- C2: the delivery acknowledgment callback raises out of the callback —
aborting the remaining publication — exactly when the acknowledgment
carries a non-null error whose code is the topic-authorization failure or
the message-delivery timeout; with any other (or no) error it returns
normally, so the batch continues. -/
theorem c2_ack_raises_iff_fatal_code (isMulti debugKafka : Bool)
    (err : Option KafkaErrorCode) :
    (acked isMulti debugKafka err).raises = true ↔
      (∃ e, err = some e ∧
        (e = KafkaErrorCode.topicAuthorizationFailed ∨
          e = KafkaErrorCode.msgTimedOut)) := by
  cases err with
  | none => simp [acked, AckOutcome.raises]
  | some e =>
    cases e <;>
      cases isMulti <;>
        simp [acked, fatalAckCodes, AckOutcome.raises]

/-- Helper for C3: `kafka_produce` against a script of `n` buffer-full
responses followed by an acceptance produces exactly the
`bufferRetryTrace n` call trace (in particular it terminates normally). -/
theorem kafkaProduce_buffer_script (n : Nat) :
    kafkaProduce
        (List.replicate n ProduceResponse.bufferError ++
          [ProduceResponse.accepted]) =
      some (bufferRetryTrace n) := by
  induction n with
  | zero => simp [kafkaProduce, bufferRetryTrace]
  | succ k ih =>
    simp [List.replicate_succ, kafkaProduce, ih, bufferRetryTrace]

/-- Helper for C3: the retry trace contains exactly `n + 1` produce
attempts. -/
theorem countProduceAttempts_bufferRetryTrace (n : Nat) :
    countProduceAttempts (bufferRetryTrace n) = n + 1 := by
  induction n with
  | zero => simp [bufferRetryTrace, countProduceAttempts]
  | succ k ih =>
    simp [bufferRetryTrace, countProduceAttempts, List.replicate_succ,
      List.countP_cons] at ih ⊢

/-- C3: when the producer raises `BufferError` on `n` consecutive produce
attempts and accepts the message on the next one, `kafka_produce` returns
normally (it never raises) after exactly `n + 1` produce attempts, and
between consecutive attempts it performs one bounded one-second poll — the
trace is `n` repetitions of attempt-then-`poll(1)` followed by the
accepted attempt and its `poll(0)`. -/
theorem c3_kafka_produce_backpressure (n : Nat) :
    kafkaProduce
        (List.replicate n ProduceResponse.bufferError ++
          [ProduceResponse.accepted]) =
      some (bufferRetryTrace n) ∧
    countProduceAttempts (bufferRetryTrace n) = n + 1 ∧
    bufferRetryTrace n =
      (List.replicate n
          [ProducerCall.produceAttempt, ProducerCall.poll 1]).flatten ++
        [ProducerCall.produceAttempt, ProducerCall.poll 0] :=
  ⟨kafkaProduce_buffer_script n, countProduceAttempts_bufferRetryTrace n, rfl⟩

/-- Helper for C5: the accumulation loop over the bindings collects exactly
the concatenated output features and the concatenated dropped names. -/
theorem foldl_outputs_dropped (tfs : List TransformationFunction)
    (a : List Feature) (d : List String) :
    tfs.foldl
        (fun (acc : List Feature × List String) tf =>
          (acc.1 ++ tf.outputFeatures,
            if !tf.hopsworksUdf.droppedFeatures.isEmpty then
              acc.2 ++ tf.hopsworksUdf.droppedFeatures
            else acc.2))
        (a, d) =
      (a ++ onDemandOutputs tfs, d ++ droppedUnion tfs) := by
  induction tfs generalizing a d with
  | nil => simp [onDemandOutputs, droppedUnion]
  | cons tf rest ih =>
    have hstep :
        (if !tf.hopsworksUdf.droppedFeatures.isEmpty then
            d ++ tf.hopsworksUdf.droppedFeatures
          else d) = d ++ tf.hopsworksUdf.droppedFeatures := by
      by_cases h : tf.hopsworksUdf.droppedFeatures.isEmpty
      · have hnil : tf.hopsworksUdf.droppedFeatures = [] := by
          simpa [List.isEmpty_iff] using h
        simp [h, hnil]
      · simp [h]
    rw [List.foldl_cons]
    simp only [hstep]
    rw [ih]
    simp [onDemandOutputs, droppedUnion, List.append_assoc]

/-- Helper for C5: the append-if-not-dropped loop is a filter. -/
theorem foldl_not_dropped (features : List Feature) (d : List String)
    (s : List Feature) :
    features.foldl
        (fun schema feat =>
          if feat.name ∈ d then schema else schema ++ [feat]) s =
      s ++ features.filter (fun f => f.name ∉ d) := by
  induction features generalizing s with
  | nil => simp
  | cons f rest ih =>
    by_cases h : f.name ∈ d <;>
      simp [List.foldl_cons, ih, List.filter_cons, h, List.append_assoc]

/-- C5 (amended): `_update_feature_group_schema_on_demand_transformations`
returns the input features minus every feature whose name is in the union
of the bindings' dropped-feature sets, followed by the synthetic on-demand
output features in binding declaration order; any feature in the result
bearing a dropped name is necessarily one of those synthetic outputs (a
dropped *original* feature never appears). -/
theorem c5_on_demand_schema_update (tfs : List TransformationFunction)
    (features : List Feature) :
    updateFGSchemaOnDemand tfs features =
      features.filter (fun f => f.name ∉ droppedUnion tfs) ++
        onDemandOutputs tfs ∧
    ∀ f ∈ updateFGSchemaOnDemand tfs features,
      f.name ∈ droppedUnion tfs → f ∈ onDemandOutputs tfs := by
  have heq : updateFGSchemaOnDemand tfs features =
      features.filter (fun f => f.name ∉ droppedUnion tfs) ++
        onDemandOutputs tfs := by
    unfold updateFGSchemaOnDemand
    by_cases h : tfs.isEmpty
    · have hnil : tfs = [] := by simpa [List.isEmpty_iff] using h
      subst hnil
      simp [onDemandOutputs, droppedUnion, List.filter_eq_self]
    · rw [if_neg h, foldl_outputs_dropped tfs [] []]
      simp [foldl_not_dropped]
  refine ⟨heq, ?_⟩
  intro f hf hd
  rw [heq] at hf
  rcases List.mem_append.mp hf with h1 | h2
  · have := List.of_mem_filter h1
    simp only [decide_not] at this
    exact absurd hd (by simpa using this)
  · exact h2

/-- C5 counterexample: with a first binding dropping `x` and a second
binding declaring output column `x`, the result of the schema update does
contain a feature named `x` even though `x` is in the dropped union — the
claim's final clause ("no dropped feature appears in the result") is false
as stated. -/
theorem c5_counterexample :
    ¬ (∀ f ∈ updateFGSchemaOnDemand
          [⟨{ outputColumnNames := ["y"], returnTypes := ["double"],
              droppedFeatures := ["x"] }⟩,
            ⟨{ outputColumnNames := ["x"], returnTypes := ["double"] }⟩]
          [{ name := "x", ftype := some "bigint" }],
        f.name ∉ droppedUnion
          [⟨{ outputColumnNames := ["y"], returnTypes := ["double"],
              droppedFeatures := ["x"] }⟩,
            ⟨{ outputColumnNames := ["x"], returnTypes := ["double"] }⟩]) := by
  decide

/-- C5 witness: the second conjunct of `c5_on_demand_schema_update` applied
at the counterexample input — the surviving `x`-named feature is one of the
synthetic on-demand outputs. -/
theorem c5_on_demand_schema_update_witness :
    Feature.mk "x" (some "double") true ∈ onDemandOutputs
      [⟨{ outputColumnNames := ["y"], returnTypes := ["double"],
          droppedFeatures := ["x"] }⟩,
        ⟨{ outputColumnNames := ["x"], returnTypes := ["double"] }⟩] :=
  (c5_on_demand_schema_update
      [⟨{ outputColumnNames := ["y"], returnTypes := ["double"],
          droppedFeatures := ["x"] }⟩,
        ⟨{ outputColumnNames := ["x"], returnTypes := ["double"] }⟩]
      [{ name := "x", ftype := some "bigint" }]).2
    (Feature.mk "x" (some "double") true) (by decide) (by decide)

/-- C1 counterexample: a non-multi-part insert on a non-external feature
group whose topic already existed (pre-publish checkpoint `"t,0:5"`), with
default write options (offline materialization on, `skip_offsets` absent)
and a materialization job that *has* been executed before.  The claim says
the checkpoint is passed as the `-initialCheckPointString` resume argument
in this case; the code omits it (the job resumes from its own committed
offsets) — the args are just the default args. -/
theorem c1_counterexample :
    (writeDataframeKafka
        { primaryKey := ["id"], onlineTopicName := "t",
          multiPartInsert := false, isExternal := false,
          onlineEnabled := false, materializationJobDefaultArgs := "DEF" }
        [] {} "t,0:5" "t,0:1" true ⟨0, 0, 0⟩).jobRun =
      some { args := "DEF", awaitTermination := false } ∧
    (writeDataframeKafka
        { primaryKey := ["id"], onlineTopicName := "t",
          multiPartInsert := false, isExternal := false,
          onlineEnabled := false, materializationJobDefaultArgs := "DEF" }
        [] {} "t,0:5" "t,0:1" true ⟨0, 0, 0⟩).jobRun ≠
      some { args := "DEF -initialCheckPointString t,0:5",
             awaitTermination := false } := by
  constructor <;> decide

/-- C1 (amended): for an insert whose online topic already existed
(non-empty pre-publish checkpoint, hence not multi-part) on a non-external
feature group, when the write options request offline materialization the
job is triggered, and the pre-publish checkpoint is passed as the
`-initialCheckPointString` resume argument exactly when `skip_offsets` is
set or the job has *never* been executed before; otherwise the offsets
argument is omitted so the job resumes from where it last left off.  No
recurring schedule is registered on this path. -/
theorem c1_resume_checkpoint_rule (fg : FeatureGroupK) (df : List KRow)
    (o : WriteOptions) (highBefore lowAfter : String)
    (jobHasLastExecution : Bool) (now : NowTime)
    (hmp : fg.multiPartInsert = false) (hext : fg.isExternal = false)
    (hhb : highBefore ≠ "")
    (hmat : startOfflineMaterialization o = true) :
    (writeDataframeKafka fg df o highBefore lowAfter jobHasLastExecution
          now).jobRun =
      some { args := fg.materializationJobDefaultArgs ++
               (if o.skipOffsets || !jobHasLastExecution then
                  " -initialCheckPointString " ++ highBefore
                else ""),
             awaitTermination := o.waitForJob } ∧
    (writeDataframeKafka fg df o highBefore lowAfter jobHasLastExecution
          now).scheduledCron = none := by
  cases hso : o.skipOffsets <;> cases hle : jobHasLastExecution <;>
    simp [writeDataframeKafka, jobArgs, hmp, hext, hmat, hhb, hso, hle]

/-- C1 witness: the amended rule at a concrete input (job executed before,
`skip_offsets` absent): the job runs with the default args only. -/
theorem c1_resume_checkpoint_rule_witness :
    (writeDataframeKafka
        { primaryKey := ["id"], onlineTopicName := "t",
          multiPartInsert := false, isExternal := false,
          onlineEnabled := false, materializationJobDefaultArgs := "DEF" }
        [] {} "t,0:5" "t,0:1" true ⟨0, 0, 0⟩).jobRun =
      some { args := "DEF", awaitTermination := false } := by
  have h := c1_resume_checkpoint_rule
    { primaryKey := ["id"], onlineTopicName := "t",
      multiPartInsert := false, isExternal := false,
      onlineEnabled := false, materializationJobDefaultArgs := "DEF" }
    [] {} "t,0:5" "t,0:1" true ⟨0, 0, 0⟩ rfl rfl (by decide) rfl
  simpa using h.1

/-- C8: for a non-multi-part insert on a non-external feature group whose
topic did not previously exist (pre-publish checkpoint is the empty
string), the materialization job is always triggered — whatever the
offline-materialization setting — with the post-publish low-watermark
checkpoint as the `-initialCheckPointString` argument, and a recurring
schedule is registered iff a backfill interval was configured: a cron
expression is used verbatim, an integer hour interval is converted to a
cron expression anchored at the current second, minute and hour. -/
theorem c8_new_topic_materialization (fg : FeatureGroupK) (df : List KRow)
    (o : WriteOptions) (lowAfter : String) (jobHasLastExecution : Bool)
    (now : NowTime)
    (hmp : fg.multiPartInsert = false) (hext : fg.isExternal = false)
    (hla : lowAfter ≠ "")
    (hbf : ∀ v, o.offlineBackfillEveryHr = some v → v.truthy = true) :
    (writeDataframeKafka fg df o "" lowAfter jobHasLastExecution
          now).initialCheckPointBefore = "" ∧
    (writeDataframeKafka fg df o "" lowAfter jobHasLastExecution
          now).jobRun =
      some { args := fg.materializationJobDefaultArgs ++
               " -initialCheckPointString " ++ lowAfter,
             awaitTermination := o.waitForJob } ∧
    ((writeDataframeKafka fg df o "" lowAfter jobHasLastExecution
          now).scheduledCron.isSome ↔ o.offlineBackfillEveryHr.isSome) ∧
    (∀ n, o.offlineBackfillEveryHr = some (.hours n) →
      (writeDataframeKafka fg df o "" lowAfter jobHasLastExecution
          now).scheduledCron = some (hourIntervalCron now n)) ∧
    (∀ s, o.offlineBackfillEveryHr = some (.cronStr s) →
      (writeDataframeKafka fg df o "" lowAfter jobHasLastExecution
          now).scheduledCron = some s) := by
  cases hobf : o.offlineBackfillEveryHr with
  | none =>
    simp [writeDataframeKafka, jobArgs, hmp, hext, hla, hobf,
      String.append_assoc]
  | some v =>
    have ht := hbf v hobf
    cases v with
    | cronStr s =>
      simp [writeDataframeKafka, jobArgs, hmp, hext, hla, hobf, ht,
        String.append_assoc]
    | hours nn =>
      simp [writeDataframeKafka, jobArgs, hmp, hext, hla, hobf, ht,
        String.append_assoc]

/-- C8 witness: concrete new-topic insert with a 6-hour backfill interval
configured at wall-clock 01:02:03 — the job runs with the low-watermark
checkpoint and the schedule uses the anchored cron expression. -/
theorem c8_new_topic_materialization_witness :
    (writeDataframeKafka
        { primaryKey := ["id"], onlineTopicName := "t",
          multiPartInsert := false, isExternal := false,
          onlineEnabled := false, materializationJobDefaultArgs := "DEF" }
        [] { offlineBackfillEveryHr := some (.hours 6) } "" "t,0:0" false
        ⟨3, 2, 1⟩).jobRun =
      some { args := "DEF" ++ " -initialCheckPointString " ++ "t,0:0",
             awaitTermination := false } ∧
    (writeDataframeKafka
        { primaryKey := ["id"], onlineTopicName := "t",
          multiPartInsert := false, isExternal := false,
          onlineEnabled := false, materializationJobDefaultArgs := "DEF" }
        [] { offlineBackfillEveryHr := some (.hours 6) } "" "t,0:0" false
        ⟨3, 2, 1⟩).scheduledCron = some "3 2 1/6 ? * * *" := by
  have h := c8_new_topic_materialization
    { primaryKey := ["id"], onlineTopicName := "t",
      multiPartInsert := false, isExternal := false,
      onlineEnabled := false, materializationJobDefaultArgs := "DEF" }
    [] { offlineBackfillEveryHr := some (.hours 6) } "t,0:0" false ⟨3, 2, 1⟩
    rfl rfl (by decide)
    (by
      intro v hv
      simp only [Option.some.injEq] at hv
      subst hv
      decide)
  refine ⟨h.2.1, ?_⟩
  have h4 := h.2.2.2.1 6 rfl
  rw [h4]
  rfl

/-- Helper for C9: the concatenation of a list of strings containing a
non-empty member is non-empty. -/
theorem pyJoin_ne_empty_of_mem {l : List String} {s : String} (hs : s ∈ l)
    (hne : s ≠ "") : pyJoin l ≠ "" := by
  induction l with
  | nil => cases hs
  | cons a t ih =>
    intro h
    have hd : (a ++ pyJoin t).data = [] := by
      rw [show a ++ pyJoin t = pyJoin (a :: t) from rfl, h]
    rw [String.data_append] at hd
    rcases List.append_eq_nil.mp hd with ⟨ha, ht⟩
    rcases List.mem_cons.mp hs with rfl | hmem
    · exact hne (String.ext ha)
    · exact ih hmem (String.ext ht)

/-- C9 counterexample: a feature group declaring the primary key `id`, with
a row whose `id` value is the empty string — the published key is the empty
string although a primary key is declared, refuting the claim's
non-emptiness clause. -/
theorem c9_counterexample :
    ¬ (∀ k ∈ (writeDataframeKafka
          { primaryKey := ["id"], onlineTopicName := "t",
            multiPartInsert := false, isExternal := false,
            onlineEnabled := false, materializationJobDefaultArgs := "DEF" }
          [[("id", PyValue.pyStr "")]] {} "" "" false
          ⟨0, 0, 0⟩).producedKeys, k ≠ "") := by
  decide

/-- C9 (amended): every row published by `_write_dataframe_kafka` carries a
broker key equal to the concatenation of the string forms of the row's
primary-key values (as normalized by `encode_row`), taken in a sorted —
hence lexicographically ordered — permutation of the declared primary-key
names; the key is non-empty whenever at least one declared primary key has
a value with a non-empty string form in that row. -/
theorem c9_row_keys (fg : FeatureGroupK) (df : List KRow) (o : WriteOptions)
    (highBefore lowAfter : String) (jobHasLastExecution : Bool)
    (now : NowTime) :
    ∃ sortedPks : List String,
      sortedPks.Sorted (· ≤ ·) ∧
      sortedPks.Perm fg.primaryKey ∧
      (writeDataframeKafka fg df o highBefore lowAfter jobHasLastExecution
          now).producedKeys =
        df.map (fun row =>
          pyJoin (sortedPks.map fun pk => ((normalizeRow row).get pk).toStr)) ∧
      ∀ row ∈ df,
        (∃ pk ∈ fg.primaryKey, ((normalizeRow row).get pk).toStr ≠ "") →
        pyJoin (sortedPks.map fun pk => ((normalizeRow row).get pk).toStr) ≠
          "" := by
  refine ⟨fg.primaryKey.insertionSort (· ≤ ·),
    List.sorted_insertionSort _ _, List.perm_insertionSort _ _, ?_, ?_⟩
  · simp only [writeDataframeKafka]
    split_ifs <;> rfl
  · rintro row hrow ⟨pk, hpkmem, hne⟩
    have hmem : pk ∈ fg.primaryKey.insertionSort (· ≤ ·) :=
      ((List.perm_insertionSort (· ≤ ·) fg.primaryKey).mem_iff).mpr hpkmem
    exact pyJoin_ne_empty_of_mem
      (List.mem_map_of_mem (fun pk => ((normalizeRow row).get pk).toStr) hmem)
      hne

/-- C9 witness: a single row with integer primary-key value 7 — the
produced key is a non-empty string. -/
theorem c9_row_keys_witness :
    ∃ s : String, s ≠ "" ∧
      (writeDataframeKafka
          { primaryKey := ["id"], onlineTopicName := "t",
            multiPartInsert := false, isExternal := false,
            onlineEnabled := false, materializationJobDefaultArgs := "DEF" }
          [[("id", PyValue.pyInt 7)]] {} "" "x" false
          ⟨0, 0, 0⟩).producedKeys = [s] := by
  obtain ⟨pks, hsort, hperm, heq, hne⟩ := c9_row_keys
    { primaryKey := ["id"], onlineTopicName := "t",
      multiPartInsert := false, isExternal := false,
      onlineEnabled := false, materializationJobDefaultArgs := "DEF" }
    [[("id", PyValue.pyInt 7)]] {} "" "x" false ⟨0, 0, 0⟩
  refine ⟨pyJoin (pks.map fun pk =>
      ((normalizeRow [("id", PyValue.pyInt 7)]).get pk).toStr), ?_, ?_⟩
  · exact hne [("id", PyValue.pyInt 7)] (by simp)
      ⟨"id", by simp, by decide⟩
  · rw [heq]
    rfl

/-- Helper for C4: a declared feature matched by no incoming feature is in
the unmatched list. -/
theorem mem_schemaUnmatched_left {existing incoming : List Feature}
    {f : Feature} (hf : f ∈ existing)
    (hall : ∀ g ∈ incoming, featureMatched f g = false) :
    f ∈ schemaUnmatched existing incoming := by
  unfold schemaUnmatched
  refine List.mem_append_left _ (List.mem_filter.mpr ⟨hf, ?_⟩)
  simp only [Bool.not_eq_true', List.any_eq_false]
  intro g hg
  simp [hall g hg]

/-- Helper for C4: an incoming feature matched by no declared feature is in
the unmatched list. -/
theorem mem_schemaUnmatched_right {existing incoming : List Feature}
    {f : Feature} (hf : f ∈ incoming)
    (hall : ∀ g ∈ existing, featureMatched g f = false) :
    f ∈ schemaUnmatched existing incoming := by
  unfold schemaUnmatched
  refine List.mem_append_right _ (List.mem_filter.mpr ⟨hf, ?_⟩)
  simp only [Bool.not_eq_true', List.any_eq_false]
  intro g hg
  simp [hall g hg]

/-- C4: on an insert into a feature group that already has an id (a
registered schema), when the dataframe's (validated) feature list is
incompatible with the declared schema — some feature of one list matched
by no feature of the other, by name and by type where both are provided —
`insert` raises a schema-mismatch error naming all unmatched features, and
`save_dataframe` is never invoked, so no row reaches the delivery engine.
The compatibility check itself is modelled from the spec (its
implementation lives outside the provided sources). -/
theorem c4_schema_mismatch_aborts (fg : FeatureGroupMeta)
    (parsed : List Feature) (transform osv : Bool)
    (vres : Except Unit (List Feature)) (geReport : Option GeReport)
    (storage : Option String) (overwrite : Bool) (url : String) (i : Nat)
    (dfF : List Feature)
    (hid : fg.id = some i)
    (hval : onlineValidatedFeatures fg
        (insertDataframeFeatures fg parsed transform) osv vres = .ok dfF)
    (hbad : (∃ f ∈ fg.features, ∀ g ∈ dfF, featureMatched f g = false) ∨
      (∃ f ∈ dfF, ∀ g ∈ fg.features, featureMatched g f = false)) :
    (fgInsert fg parsed transform osv vres true geReport storage overwrite
        url).2 =
      .error (.schemaMismatch (schemaUnmatched fg.features dfF)) ∧
    schemaUnmatched fg.features dfF ≠ [] ∧
    EngineCall.saveDataframe ∉
      (fgInsert fg parsed transform osv vres true geReport storage overwrite
        url).1 ∧
    (∀ f ∈ fg.features, (∀ g ∈ dfF, featureMatched f g = false) →
      f ∈ schemaUnmatched fg.features dfF) ∧
    (∀ f ∈ dfF, (∀ g ∈ fg.features, featureMatched g f = false) →
      f ∈ schemaUnmatched fg.features dfF) := by
  have hne : schemaUnmatched fg.features dfF ≠ [] := by
    rcases hbad with ⟨f, hfmem, hall⟩ | ⟨f, hfmem, hall⟩
    · exact List.ne_nil_of_mem (mem_schemaUnmatched_left hfmem hall)
    · exact List.ne_nil_of_mem (mem_schemaUnmatched_right hfmem hall)
  have hverify : verifySchemaCompatibility fg.features dfF =
      .error (schemaUnmatched fg.features dfF) := by
    unfold verifySchemaCompatibility
    simp [List.isEmpty_iff, hne]
  have hstep : insertSchemaStep fg dfF =
      .error (.schemaMismatch (schemaUnmatched fg.features dfF)) := by
    simp [insertSchemaStep, hid, hverify]
  refine ⟨?_, hne, ?_,
    fun f hf hall => mem_schemaUnmatched_left hf hall,
    fun f hf hall => mem_schemaUnmatched_right hf hall⟩
  · simp [fgInsert, hval, hstep]
  · simp only [fgInsert, hval, hstep]
    by_cases h : insertAppliesTransformations fg transform = true <;>
      simp [h]

/-- C4 witness: a feature group with id 1 declaring feature `a : bigint`
receives a dataframe inferring only `b : bigint` — the insert errors with
the schema mismatch naming both, and no `save_dataframe` call happens. -/
theorem c4_schema_mismatch_aborts_witness :
    (fgInsert
        { id := some 1, features := [{ name := "a", ftype := some "bigint" }],
          transformationFunctions := [], isExternal := false,
          onlineEnabled := false, hasEmbeddingIndex := false }
        [{ name := "b", ftype := some "bigint" }] true true (.ok []) true
        none none false "url").2 =
      .error (.schemaMismatch
        (schemaUnmatched [{ name := "a", ftype := some "bigint" }]
          [{ name := "b", ftype := some "bigint" }])) := by
  have h := c4_schema_mismatch_aborts
    { id := some 1, features := [{ name := "a", ftype := some "bigint" }],
      transformationFunctions := [], isExternal := false,
      onlineEnabled := false, hasEmbeddingIndex := false }
    [{ name := "b", ftype := some "bigint" }] true true (.ok []) none none
    false "url" 1 [{ name := "b", ftype := some "bigint" }] rfl rfl
    (Or.inl ⟨{ name := "a", ftype := some "bigint" }, by decide, by decide⟩)
  exact h.1

/-- C7: when the great-expectations gate reports the batch `REJECTED`,
`insert` raises the data-validation exception referencing the
feature-group url (hard failure) while `save` returns normally with no job
(`none`); in both flows `save_dataframe` is never called, so no dataframe
is handed to the delivery engine. -/
theorem c7_rejected_validation (fg : FeatureGroupMeta)
    (parsed : List Feature) (transform osv : Bool)
    (vres : Except Unit (List Feature)) (storage : Option String)
    (overwrite : Bool) (url : String) (r : GeReport) (b : Bool)
    (dfF : List Feature) (fgS : FeatureGroupMeta) (parsedS : List Feature)
    (osvS : Bool) (vresS : Except Unit (List Feature)) (dfFs : List Feature)
    (hrej : r.ingestionResult = "REJECTED")
    (hval : onlineValidatedFeatures fg
        (insertDataframeFeatures fg parsed transform) osv vres = .ok dfF)
    (hstep : insertSchemaStep fg dfF = .ok b)
    (hvalS : onlineValidatedFeatures fgS
        (updateFGSchemaOnDemand fgS.transformationFunctions parsedS) osvS
        vresS = .ok dfFs)
    (hmetaS : saveFGMetadataCheck fgS dfFs = .ok ()) :
    (fgInsert fg parsed transform osv vres true (some r) storage overwrite
        url).2 = .error (.dataValidation url) ∧
    EngineCall.saveDataframe ∉
      (fgInsert fg parsed transform osv vres true (some r) storage overwrite
        url).1 ∧
    (fgSave fgS parsedS osvS vresS true (some r)).2 = .ok none ∧
    EngineCall.saveDataframe ∉ (fgSave fgS parsedS osvS vresS true
      (some r)).1 := by
  refine ⟨?_, ?_, ?_, ?_⟩
  · simp [fgInsert, hval, hstep, fgInsertTail, hrej]
  · simp only [fgInsert, hval, hstep, fgInsertTail]
    by_cases h : insertAppliesTransformations fg transform = true <;>
      cases b <;> simp [h, hrej]
  · simp [fgSave, hvalS, hmetaS, hrej]
  · simp only [fgSave, hvalS, hmetaS]
    by_cases h :
        (!fgS.transformationFunctions.isEmpty && !fgS.isExternal) = true <;>
      simp [h, hrej]

/-- C7 witness: a concrete rejected report against a fresh feature group —
insert raises the data-validation error, save returns no job. -/
theorem c7_rejected_validation_witness :
    (fgInsert
        { id := some 1, features := [{ name := "a", ftype := some "bigint" }],
          transformationFunctions := [], isExternal := false,
          onlineEnabled := false, hasEmbeddingIndex := false }
        [{ name := "a", ftype := some "bigint" }] true true (.ok []) true
        (some ⟨"REJECTED"⟩) none false "url").2 =
      .error (.dataValidation "url") ∧
    (fgSave
        { id := none, features := [], transformationFunctions := [],
          isExternal := false, onlineEnabled := false,
          hasEmbeddingIndex := false }
        [{ name := "a", ftype := some "bigint" }] true (.ok []) true
        (some ⟨"REJECTED"⟩)).2 = .ok none := by
  have h := c7_rejected_validation
    { id := some 1, features := [{ name := "a", ftype := some "bigint" }],
      transformationFunctions := [], isExternal := false,
      onlineEnabled := false, hasEmbeddingIndex := false }
    [{ name := "a", ftype := some "bigint" }] true true (.ok []) none false
    "url" ⟨"REJECTED"⟩ false [{ name := "a", ftype := some "bigint" }]
    { id := none, features := [], transformationFunctions := [],
      isExternal := false, onlineEnabled := false,
      hasEmbeddingIndex := false }
    [{ name := "a", ftype := some "bigint" }] true (.ok [])
    [{ name := "a", ftype := some "bigint" }] rfl rfl rfl rfl rfl
  exact ⟨h.1, h.2.2.1⟩

/-- Helper for C6: overwriting a name absent from a column list leaves the
list unchanged. -/
theorem mapOverwrite_eq_self {o : String} {vals : List PyValue} :
    ∀ {t : List (String × List PyValue)}, (∀ x ∈ t, ¬x.1 = o) →
      t.map (fun c => if c.1 == o then (o, vals) else c) = t := by
  intro t
  induction t with
  | nil => intro _; rfl
  | cons c rest ih =>
    intro h
    have hc : ¬c.1 = o := h c (List.mem_cons_self c rest)
    simp only [List.map_cons, ih fun x hx => h x (List.mem_cons_of_mem c hx)]
    simp [hc]

/-- Helper for C6: after the overwrite, the first column named `o` holds
the new values. -/
theorem find_mapOverwrite {o : String} {vals : List PyValue} :
    ∀ {t : List (String × List PyValue)}, o ∈ t.map Prod.fst →
      (t.map (fun c => if c.1 == o then (o, vals) else c)).find?
          (fun c => c.1 == o) = some (o, vals) := by
  intro t
  induction t with
  | nil => intro h; cases h
  | cons c rest ih =>
    intro h
    by_cases hc : c.1 = o
    · rw [List.map_cons,
        show (if c.1 == o then (o, vals) else c) = (o, vals) by simp [hc]]
      rw [List.find?_cons_of_pos _ (by simp)]
    · have hmem : o ∈ rest.map Prod.fst := by
        rcases List.mem_cons.mp h with h1 | h1
        · exact absurd h1.symm hc
        · exact h1
      rw [List.map_cons,
        show (if c.1 == o then (o, vals) else c) = c by simp [hc]]
      rw [List.find?_cons_of_neg _ (by simp [hc])]
      exact ih hmem

/-- Helper for C6: with distinct column names, removing the first (hence
only) column named `o` after the overwrite is the same as filtering `o`
out of the original list. -/
theorem eraseP_mapOverwrite {o : String} {vals : List PyValue} :
    ∀ {t : List (String × List PyValue)}, (t.map Prod.fst).Nodup →
      (t.map (fun c => if c.1 == o then (o, vals) else c)).eraseP
          (fun c => c.1 == o) = t.filter (fun c => ¬c.1 = o) := by
  intro t
  induction t with
  | nil => intro _; rfl
  | cons c rest ih =>
    intro hnd
    have hnd' : (rest.map Prod.fst).Nodup := (List.nodup_cons.mp hnd).2
    have hno : c.1 ∉ rest.map Prod.fst := (List.nodup_cons.mp hnd).1
    by_cases hc : c.1 = o
    · subst hc
      have hrest : ∀ x ∈ rest, ¬x.1 = c.1 := by
        intro x hx hcontra
        exact hno (hcontra ▸ List.mem_map_of_mem Prod.fst hx)
      rw [List.map_cons, mapOverwrite_eq_self hrest]
      rw [show (if c.1 == c.1 then (c.1, vals) else c) = (c.1, vals) by
        simp]
      rw [List.eraseP_cons_of_pos (by simp)]
      rw [List.filter_cons_of_neg (by simp)]
      rw [List.filter_eq_self.mpr fun x hx => by simp [hrest x hx]]
    · rw [List.map_cons]
      rw [show (if c.1 == o then (o, vals) else c) = c by simp [hc]]
      rw [List.eraseP_cons_of_neg (by simp [hc]), ih hnd']
      rw [List.filter_cons_of_pos (by simp [hc])]

/-- Helper for C6: the combined effect of the single-output assignment and
the move-to-end reorder on a dataframe with distinct column names, when the
output name collides with an existing column: that column is removed from
its place, given the new values, and appended last. -/
theorem setCol_moveColToEnd_cols (df : PandasDF) (o : String)
    (vals : List PyValue) (hnd : df.colNames.Nodup)
    (hmem : o ∈ df.colNames) :
    ((df.setCol o vals).moveColToEnd o).cols =
      df.cols.filter (fun c => ¬c.1 = o) ++ [(o, vals)] := by
  have hany : df.cols.any (fun c => c.1 == o) = true := by
    rcases List.mem_map.mp hmem with ⟨c, hc, rfl⟩
    exact List.any_eq_true.mpr ⟨c, hc, by simp⟩
  unfold PandasDF.setCol PandasDF.moveColToEnd
  rw [if_pos hany]
  have hfind := @find_mapOverwrite o vals df.cols hmem
  simp only [hfind]
  simp only [@eraseP_mapOverwrite o vals df.cols hnd]

/-- C6 counterexample: a *multi-output* binding (outputs `x` and `z`) whose
first output name collides with existing column `x` of the dataframe
`[x, y]`.  The multi-column assignment overwrites `x` in place and appends
`z`, so the columns are `[x, y, z]`: column `x` is not the last column,
refuting the claim for multi-output bindings. -/
theorem c6_counterexample :
    ¬ ((applyPythonUdf (fun _ => [PyValue.pyInt 10, PyValue.pyInt 20])
          { outputColumnNames := ["x", "z"],
            returnTypes := ["bigint", "bigint"],
            transformationFeatures := ["y"] }
          ⟨[("x", [PyValue.pyInt 1]),
            ("y", [PyValue.pyInt 2])]⟩).colNames.count "x" = 1 ∧
        (applyPythonUdf (fun _ => [PyValue.pyInt 10, PyValue.pyInt 20])
          { outputColumnNames := ["x", "z"],
            returnTypes := ["bigint", "bigint"],
            transformationFeatures := ["y"] }
          ⟨[("x", [PyValue.pyInt 1]),
            ("y", [PyValue.pyInt 2])]⟩).colNames.getLast? = some "x") := by
  decide

/-- C6 (amended): for a *single-output* binding applied through the pandas
code path of `_apply_python_udf` or `_apply_pandas_udf`, on a dataframe
with distinct column names, when the declared output column name collides
with an existing column, the result has that column exactly once, holding
the transformation's output values, as the last column, while the
non-overwritten columns keep their original relative order (the result is
exactly the original columns with the collision filtered out, followed by
the freshly computed column). -/
theorem c6_single_output_overwrite (fn : List PyValue → List PyValue)
    (fnV : List (List PyValue) → List (List PyValue)) (udf : HopsworksUdf)
    (df : PandasDF) (o t : String)
    (ho : udf.outputColumnNames = [o]) (ht : udf.returnTypes = [t])
    (hnd : df.colNames.Nodup) (hmem : o ∈ df.colNames) :
    (applyPythonUdf fn udf df).cols =
      df.cols.filter (fun c => ¬c.1 = o) ++
        [(o, udfOutputCol fn df udf 0)] ∧
    (applyPandasUdf fnV udf df).cols =
      df.cols.filter (fun c => ¬c.1 = o) ++
        [(o, (fnV (udf.transformationFeatures.map df.colValues)).getD 0
          [])] ∧
    (applyPythonUdf fn udf df).colNames.count o = 1 ∧
    (applyPythonUdf fn udf df).colNames.getLast? = some o ∧
    (applyPandasUdf fnV udf df).colNames.count o = 1 ∧
    (applyPandasUdf fnV udf df).colNames.getLast? = some o := by
  have hcount0 : ((df.cols.filter (fun c => ¬c.1 = o)).map Prod.fst).count o
      = 0 := by
    rw [List.count_eq_zero]
    intro hcontra
    rcases List.mem_map.mp hcontra with ⟨c, hc, hco⟩
    have := List.of_mem_filter hc
    simp [hco] at this
  have h1 : applyPythonUdf fn udf df =
      (df.setCol o (udfOutputCol fn df udf 0)).moveColToEnd o := by
    simp [applyPythonUdf, ho, ht]
  have h2 : applyPandasUdf fnV udf df =
      (df.setCol o
        ((fnV (udf.transformationFeatures.map df.colValues)).getD 0
          [])).moveColToEnd o := by
    simp [applyPandasUdf, ho, ht]
  have hc1 := setCol_moveColToEnd_cols df o (udfOutputCol fn df udf 0) hnd
    hmem
  have hc2 := setCol_moveColToEnd_cols df o
    ((fnV (udf.transformationFeatures.map df.colValues)).getD 0 []) hnd hmem
  have hn1 : (applyPythonUdf fn udf df).colNames =
      (df.cols.filter (fun c => ¬c.1 = o)).map Prod.fst ++ [o] := by
    rw [h1]
    unfold PandasDF.colNames
    rw [hc1]
    simp
  have hn2 : (applyPandasUdf fnV udf df).colNames =
      (df.cols.filter (fun c => ¬c.1 = o)).map Prod.fst ++ [o] := by
    rw [h2]
    unfold PandasDF.colNames
    rw [hc2]
    simp
  refine ⟨by rw [h1]; exact hc1, by rw [h2]; exact hc2, ?_, ?_, ?_, ?_⟩
  · rw [hn1, List.count_append, hcount0]
    simp
  · rw [hn1]
    exact List.getLast?_concat _
  · rw [hn2, List.count_append, hcount0]
    simp
  · rw [hn2]
    exact List.getLast?_concat _

/-- C6 witness: a single-output binding writing to the existing column `x`
of the dataframe `[x, y]` — after applying, `x` appears exactly once and is
the last column. -/
theorem c6_single_output_overwrite_witness :
    (applyPythonUdf (fun _ => [PyValue.pyInt 10])
        { outputColumnNames := ["x"], returnTypes := ["bigint"],
          transformationFeatures := ["y"] }
        ⟨[("x", [PyValue.pyInt 1]),
          ("y", [PyValue.pyInt 2])]⟩).colNames.count "x" = 1 ∧
    (applyPythonUdf (fun _ => [PyValue.pyInt 10])
        { outputColumnNames := ["x"], returnTypes := ["bigint"],
          transformationFeatures := ["y"] }
        ⟨[("x", [PyValue.pyInt 1]),
          ("y", [PyValue.pyInt 2])]⟩).colNames.getLast? = some "x" := by
  have h := c6_single_output_overwrite (fun _ => [PyValue.pyInt 10])
    (fun _ => [[PyValue.pyInt 10]])
    { outputColumnNames := ["x"], returnTypes := ["bigint"],
      transformationFeatures := ["y"] }
    ⟨[("x", [PyValue.pyInt 1]), ("y", [PyValue.pyInt 2])]⟩ "x" "bigint"
    rfl rfl (by decide) (by decide)
  exact ⟨h.2.2.1, h.2.2.2.1⟩

/-- Helper for C10: allocation does not change existing cells. -/
theorem alloc_read_preserved (st : PdStore) (cd : ColData) (r : Nat)
    (hr : r < st.cells.length) : (st.alloc cd).1.read r = st.read r := by
  unfold PdStore.alloc PdStore.read
  exact List.getD_append _ _ _ _ hr

/-- Helper for C10: reading the freshly allocated cell yields its value. -/
theorem alloc_read_new (st : PdStore) (cd : ColData) :
    (st.alloc cd).1.read st.cells.length = cd := by
  unfold PdStore.alloc PdStore.read
  rw [List.getD_append_right _ _ _ _ (le_refl _)]
  simp

/-- Helper for C10: the timezone-normalization loop only appends to the
store. -/
theorem fixTzColumns_cells_grow (l : List (String × Nat)) (st : PdStore) :
    ∃ extra, (fixTzColumns st l).1.cells = st.cells ++ extra := by
  induction l generalizing st with
  | nil => exact ⟨[], by simp [fixTzColumns]⟩
  | cons c rest ih =>
    by_cases h : (st.read c.2).isTzAware
    · obtain ⟨e, he⟩ := ih (st.alloc (tzToNaive (st.read c.2))).1
      refine ⟨tzToNaive (st.read c.2) :: e, ?_⟩
      simp only [fixTzColumns, h, if_true]
      rw [he]
      simp [PdStore.alloc]
    · obtain ⟨e, he⟩ := ih st
      refine ⟨e, ?_⟩
      simp only [fixTzColumns, h, if_false]
      exact he

/-- Helper for C10: the loop never writes through a pre-existing cell. -/
theorem fixTzColumns_read_preserved (l : List (String × Nat)) (st : PdStore)
    (r : Nat) (hr : r < st.cells.length) :
    (fixTzColumns st l).1.read r = st.read r := by
  obtain ⟨e, he⟩ := fixTzColumns_cells_grow l st
  unfold PdStore.read
  rw [he]
  exact List.getD_append _ _ _ _ hr

/-- Helper for C10: the loop's output columns resolve, in the final store,
to the original column data with the timezone dropped where it was
present. -/
theorem fixTzColumns_resolve (l : List (String × Nat)) (st : PdStore)
    (hwf : ∀ c ∈ l, c.2 < st.cells.length) :
    ((fixTzColumns st l).2).map
        (fun c => (c.1, (fixTzColumns st l).1.read c.2)) =
      l.map (fun c => (c.1,
        if (st.read c.2).isTzAware then tzToNaive (st.read c.2)
        else st.read c.2)) := by
  induction l generalizing st with
  | nil => rfl
  | cons c rest ih =>
    have hc : c.2 < st.cells.length := hwf c (List.mem_cons_self c rest)
    have hrest : ∀ x ∈ rest, x.2 < st.cells.length := fun x hx =>
      hwf x (List.mem_cons_of_mem c hx)
    by_cases h : (st.read c.2).isTzAware
    · have hstep : fixTzColumns st (c :: rest) =
          ((fixTzColumns (st.alloc (tzToNaive (st.read c.2))).1 rest).1,
            (c.1, (st.alloc (tzToNaive (st.read c.2))).2) ::
              (fixTzColumns (st.alloc (tzToNaive (st.read c.2))).1
                rest).2) := by
        simp only [fixTzColumns, h, if_true]
      have hlen : (st.alloc (tzToNaive (st.read c.2))).1.cells.length =
          st.cells.length + 1 := by
        simp [PdStore.alloc]
      have hrest2 : ∀ x ∈ rest,
          x.2 < (st.alloc (tzToNaive (st.read c.2))).1.cells.length := by
        intro x hx
        rw [hlen]
        exact Nat.lt_succ_of_lt (hrest x hx)
      have hhead : (fixTzColumns (st.alloc (tzToNaive (st.read c.2))).1
          rest).1.read st.cells.length = tzToNaive (st.read c.2) := by
        rw [fixTzColumns_read_preserved rest _ st.cells.length
          (by rw [hlen]; exact Nat.lt_succ_self _)]
        exact alloc_read_new st (tzToNaive (st.read c.2))
      have htail := ih (st.alloc (tzToNaive (st.read c.2))).1 hrest2
      rw [hstep]
      simp only [List.map_cons]
      rw [show (st.alloc (tzToNaive (st.read c.2))).2 = st.cells.length from
        rfl]
      rw [hhead, htail, if_pos h]
      congr 1
      apply List.map_congr_left
      intro x hx
      rw [alloc_read_preserved st (tzToNaive (st.read c.2)) x.2
        (hrest x hx)]
    · have hstep : fixTzColumns st (c :: rest) =
          ((fixTzColumns st rest).1,
            (c.1, c.2) :: (fixTzColumns st rest).2) := by
        simp only [fixTzColumns]
        rw [if_neg h]
      rw [hstep]
      simp only [List.map_cons]
      rw [fixTzColumns_read_preserved rest st c.2 hc, if_neg h]
      congr 1
      exact ih st hrest

/-- C10: `convert_to_default_dataframe` on a pandas or polars dataframe
performs the column-name sanitization and timezone normalization on a
shallow copy and returns that copy: after the call the caller's original
dataframe still resolves to its original column names and column data
(no shared column object was written through), while the returned copy
carries the sanitized names and the normalized columns. -/
theorem c10_convert_returns_copy (st : PdStore) (df : PdFrame)
    (hwf : ∀ c ∈ df.columns, c.2 < st.cells.length) :
    PdFrame.resolve df (convertToDefaultDataframe st df).1 =
      PdFrame.resolve df st ∧
    PdFrame.resolve (convertToDefaultDataframe st df).2
        (convertToDefaultDataframe st df).1 =
      (PdFrame.resolve df st).map (fun c => (autofixFeatureName c.1,
        if c.2.isTzAware then tzToNaive c.2 else c.2)) := by
  have hwf2 : ∀ c ∈ df.columns.map
      (fun c => (autofixFeatureName c.1, c.2)), c.2 < st.cells.length := by
    intro c hc
    rcases List.mem_map.mp hc with ⟨x, hx, rfl⟩
    exact hwf x hx
  constructor
  · unfold PdFrame.resolve convertToDefaultDataframe
    apply List.map_congr_left
    intro x hx
    rw [fixTzColumns_read_preserved _ _ _ (hwf x hx)]
  · have hconv : convertToDefaultDataframe st df =
        ((fixTzColumns st (df.columns.map
            (fun c => (autofixFeatureName c.1, c.2)))).1,
          ⟨(fixTzColumns st (df.columns.map
            (fun c => (autofixFeatureName c.1, c.2)))).2⟩) := rfl
    simp only [hconv]
    unfold PdFrame.resolve
    rw [show (PdFrame.mk (fixTzColumns st (df.columns.map
        (fun c => (autofixFeatureName c.1, c.2)))).2).columns =
      (fixTzColumns st (df.columns.map
        (fun c => (autofixFeatureName c.1, c.2)))).2 from rfl]
    rw [fixTzColumns_resolve _ st hwf2]
    rw [List.map_map, List.map_map]
    rfl

/-- C10 witness: a concrete two-column frame (one timezone-aware column
named with an upper-case letter and a space) — after the conversion the
original frame resolves unchanged in the resulting store. -/
theorem c10_convert_returns_copy_witness :
    PdFrame.resolve ⟨[("A B", 0), ("c", 1)]⟩
        (convertToDefaultDataframe ⟨[⟨true, [5]⟩, ⟨false, [7]⟩]⟩
          ⟨[("A B", 0), ("c", 1)]⟩).1 =
      PdFrame.resolve ⟨[("A B", 0), ("c", 1)]⟩
        ⟨[⟨true, [5]⟩, ⟨false, [7]⟩]⟩ :=
  (c10_convert_returns_copy ⟨[⟨true, [5]⟩, ⟨false, [7]⟩]⟩
    ⟨[("A B", 0), ("c", 1)]⟩ (by decide)).1

end HopsworksSpec
